import Mathlib

/-
Verification development for the real-estate listing crawler
(`src/unnamed/part_013`).  The JavaScript source is shallowly embedded:
pure computations become Lean functions, the MongoDB collections become
explicit lists threaded through the functions, and every external I/O
result (HTTP responses, image upload success, insert success) is an
explicit oracle parameter, so each embedded function is a total,
executable description of what the source does for a given set of I/O
outcomes.
-/

namespace Trestle

/-- JavaScript-style field values appearing in upstream listing records.
A `media` value encodes the upstream `Media` array: one entry per media
object, carrying its `MediaURL` field when present (`none` when the
object has no `MediaURL` key). -/
inductive JsVal where
  | str (s : String)
  | num (n : Int)
  | bool (b : Bool)
  | null
  | media (items : List (Option String))
  deriving DecidableEq, Repr

/-- A raw upstream listing record: the ordered `Object.entries` view of the
JSON object (keys are unique, as in any JavaScript object). -/
abbrev RawListing := List (String × JsVal)

/-- First-match association lookup, mirroring JavaScript property access
`data?.[key]` (`none` plays the role of `undefined`). -/
def lookupField : List (String × JsVal) → String → Option JsVal
  | [], _ => none
  | (k, v) :: rest, key => if k = key then some v else lookupField rest key

/-- Whether a value is a JavaScript number (the embedding of
`typeof defaultValue === 'number'`). -/
def isNumVal : JsVal → Bool
  | .num _ => true
  | _ => false

/-- Embedding of `getSafe(data, key, defaultValue)` (source lines 102-108):
returns the field value unless it is `undefined`, with the special case
that an empty-string value is replaced by a numeric default. -/
def getSafe (l : RawListing) (key : String) (dflt : JsVal) : JsVal :=
  match lookupField l key with
  | none => dflt
  | some v => if isNumVal dflt ∧ v = JsVal.str "" then dflt else v

/-- JavaScript truthiness of an embedded value (arrays are always truthy). -/
def truthy : JsVal → Bool
  | .str s => decide (s ≠ "")
  | .num n => decide (n ≠ 0)
  | .bool b => b
  | .null => false
  | .media _ => true

/-- JavaScript `String(x)` for the values the crawler converts
(`String(listingKey)`, line 336).  Arrays are approximated by a fixed
rendering; the claims only exercise string keys. -/
def jsToString : JsVal → String
  | .str s => s
  | .num n => toString n
  | .bool b => if b then "true" else "false"
  | .null => "null"
  | .media _ => "[object]"

/-! ### Token management (sequential view)

Embedding of the module-level token state `_currentAccessToken`,
`_tokenExpiresAt`, `_tokenLock` and of `getTrestleToken` /
`ensureValidToken` (source lines 56-60, 169-227, 255-267) as explicit
state passing.  Times are milliseconds since epoch (`Date.getTime()`).
The outcome of the HTTP POST to the token endpoint is an oracle
parameter: `netErr` covers both network failures and non-2xx responses
(axios rejects on those), `ok a e` a 2xx response whose body may or may
not carry `access_token` / `expires_in`. -/

/-- Cached-token state: `_currentAccessToken`, `_tokenExpiresAt`,
`_tokenLock`. -/
structure TokSt where
  token : Option String
  expires : Option Int
  lock : Bool
  deriving DecidableEq, Repr

/-- Outcome of one HTTP request to the token endpoint. -/
inductive TokenResponse where
  | netErr
  | ok (accessToken : Option String) (expiresIn : Option Int)
  deriving DecidableEq, Repr

/-- The refresh threshold `_tokenRefreshThreshold = 5 * 60 * 1000`. -/
def tokenRefreshThreshold : Int := 5 * 60 * 1000

/-- Whether the cached token passes the `ensureValidToken` check at time
`now`: a token and expiry are cached and more than five minutes of
validity remain.  This is the negation of the refresh condition on
source line 260. -/
def tokenValid (st : TokSt) (now : Int) : Bool :=
  match st.token, st.expires with
  | some _, some e => decide (e - now > tokenRefreshThreshold)
  | _, _ => false

/-- Embedding of `getTrestleToken` (lines 169-227) for a single caller.
Returns the new state, the boolean result, and the number of HTTP token
requests issued (0 or 1).  When `_tokenLock` is held the source polls
until the lock is released and then returns `_currentAccessToken !==
null`; in this sequential (one caller) view the lock branch returns that
value directly — the interleaved behaviour is modelled separately below.
In the body, the lock is taken, the request made, and on every path the
lock is released before returning; on success both token and absolute
expiry `now + expires_in * 1000` are stored, on any failure the cached
token and expiry are not written. -/
def getTrestleToken (now : Int) (resp : TokenResponse) (st : TokSt) :
    TokSt × Bool × Nat :=
  if st.lock then (st, st.token.isSome, 0)
  else
    match resp with
    | .ok (some a) (some e) =>
        (⟨some a, some (now + e * 1000), false⟩, true, 1)
    | .ok _ _ => (⟨st.token, st.expires, false⟩, false, 1)
    | .netErr => (⟨st.token, st.expires, false⟩, false, 1)

/-- Embedding of `ensureValidToken` (lines 255-267): refresh when no
token/expiry is cached or five minutes or less remain, otherwise report
the cached token as valid without any HTTP request. -/
def ensureValidToken (now : Int) (resp : TokenResponse) (st : TokSt) :
    TokSt × Bool × Nat :=
  if tokenValid st now then (st, true, 0)
  else getTrestleToken now resp st

/-- A token-endpoint response that `getTrestleToken` treats as a failure:
a rejected request (network error or non-2xx status) or a 2xx body
missing `access_token` or `expires_in`. -/
def respFails : TokenResponse → Bool
  | .netErr => true
  | .ok (some _) (some _) => false
  | .ok _ _ => true

/-! ### Image pipeline

`processImageUpload` (lines 229-253) downloads, compresses and uploads
one image.  Whether the three network/transcode steps succeed is an
oracle; when they succeed, the resulting public URL is a pure function
of the source URL: the filename is `imageUrl.split('/').pop().split('?')[0]`,
normalized to a `.jpg` extension, uploaded under
`properties/<filename>` in the bucket `real-estate-images`
(`uploadToGCS`, lines 146-166). -/

/-- Split a character list at every occurrence of a separator, as
JavaScript `String.split` does (`"" → [""]`, separators at the ends
produce empty groups). -/
def splitOnChar (c : Char) : List Char → List (List Char)
  | [] => [[]]
  | x :: xs =>
    match splitOnChar c xs with
    | [] => [[]]
    | g :: gs => if x = c then [] :: g :: gs else (x :: g) :: gs

/-- Whether a filename ends in `.jpg` case-insensitively
(`filename.toLowerCase().endsWith('.jpg')`). -/
def endsWithJpg (l : List Char) : Bool :=
  decide ((l.map Char.toLower).reverse.take 4 = ['g', 'p', 'j', '.'])

/-- Filename derivation of `processImageUpload` (lines 240-245):
`imageUrl.split('/').pop().split('?')[0]`, with `.jpg` appended unless
already present (case-insensitively). -/
def filenameOf (url : String) : String :=
  let base := (splitOnChar '/' url.data).getLastD []
  let base := (splitOnChar '?' base).headD []
  if endsWithJpg base then String.mk base else String.mk (base ++ ['.', 'j', 'p', 'g'])

/-- The public storage URL returned by `uploadToGCS` for a source image
URL (line 161). -/
def gcsUrl (url : String) : String :=
  "https://storage.googleapis.com/real-estate-images/properties/" ++ filenameOf url

/-! ### Document stores

The two MongoDB collections are embedded as lists in insertion order:
`listing_images` rows and `listings` documents.  `countDocuments`,
`find`, `findOne`, `insertOne`, `updateOne`-with-upsert, `deleteOne`
and `deleteMany` become the corresponding list operations. -/

/-- One row of the `listing_images` collection (inserted on line 309). -/
structure ImageRow where
  listing_key : JsVal
  image_url : String
  uploaded : Bool
  deriving DecidableEq, Repr

abbrev ImagesDB := List ImageRow

/-- `mongoImages.countDocuments({'listing_key': listingKey})` (line 282). -/
def countImages (db : ImagesDB) (k : JsVal) : Nat :=
  (db.filter (fun r => r.listing_key = k)).length

/-- The URLs already stored for a listing:
`find({'listing_key': ...}).map(img => img.image_url || '')`
(lines 297-298; `|| ''` is the identity on the stored strings). -/
def imageUrlsFor (db : ImagesDB) (k : JsVal) : List String :=
  (db.filter (fun r => r.listing_key = k)).map (fun r => r.image_url)

/-- `mongoImages.findOne({'listing_key': listingKey})` (line 329). -/
def findOneImage (db : ImagesDB) (k : JsVal) : Option ImageRow :=
  db.find? (fun r => r.listing_key = k)

/-- A normalized listing document: the scalar fields of the object
literal on lines 335-418 in source order, plus the `other_info`
catch-all object (lines 419-424). -/
structure Doc where
  entries : List (String × JsVal)
  other_info : List (String × JsVal)
  deriving DecidableEq, Repr

abbrev ListingsDB := List Doc

/-- The `other_info` catch-all (lines 419-424): every entry of the raw
record whose key is not `Media` and whose value is truthy. -/
def otherInfo (l : RawListing) : List (String × JsVal) :=
  l.filter (fun p => p.1 ≠ "Media" ∧ truthy p.2)

/-- The document literal of `processListingSequential`
(lines 335-425), given the raw record, the listing key value and the
resolved main image URL. -/
def mkDoc (l : RawListing) (lk : JsVal) (mainImg : String) : Doc where
  entries :=
    [ ("listing_key", JsVal.str (jsToString lk)),
      ("listing_id", getSafe l "ListingId" JsVal.null),
      ("list_price", getSafe l "ListPrice" (JsVal.num 0)),
      ("original_list_price", getSafe l "OriginalListPrice" (JsVal.num 0)),
      ("previous_list_price", getSafe l "PreviousListPrice" (JsVal.num 0)),
      ("lease_amount", getSafe l "LeaseAmount" (JsVal.num 0)),
      ("address", getSafe l "UnparsedAddress" JsVal.null),
      ("city", getSafe l "City" JsVal.null),
      ("county", getSafe l "CountyOrParish" JsVal.null),
      ("postal_code", getSafe l "PostalCode" JsVal.null),
      ("latitude", getSafe l "Latitude" (JsVal.num 0)),
      ("longitude", getSafe l "Longitude" (JsVal.num 0)),
      ("property_type", getSafe l "PropertyType" JsVal.null),
      ("property_sub_type", getSafe l "PropertySubType" JsVal.null),
      ("bedrooms", getSafe l "BedroomsTotal" (JsVal.num 0)),
      ("bathrooms", getSafe l "BathroomsTotalInteger" (JsVal.num 0)),
      ("rooms_total", getSafe l "RoomsTotal" JsVal.null),
      ("living_area_sqft", getSafe l "LivingArea" (JsVal.num 0)),
      ("lot_size_sqft", getSafe l "LotSizeSquareFeet" (JsVal.num 0)),
      ("status", getSafe l "SaleOrLeaseIndicator" JsVal.null),
      ("highschool", getSafe l "HighSchool" JsVal.null),
      ("cooling", getSafe l "Cooling" JsVal.null),
      ("heating", getSafe l "Heating" JsVal.null),
      ("HeatingYN", getSafe l "HeatingYN" JsVal.null),
      ("stories", getSafe l "Stories" JsVal.null),
      ("accessibility_features", getSafe l "AccessibilityFeatures" JsVal.null),
      ("interior_features", getSafe l "InteriorFeatures" JsVal.null),
      ("garage_yn", getSafe l "GarageYN" JsVal.null),
      ("garage_size", getSafe l "GarageSpaces" JsVal.null),
      ("door_features", getSafe l "DoorFeatures" JsVal.null),
      ("laundry_features", getSafe l "LaundryFeatures" JsVal.null),
      ("parking_features", getSafe l "ParkingFeatures" JsVal.null),
      ("exterior_features", getSafe l "ExteriorFeatures" JsVal.null),
      ("patio_and_porch_features", getSafe l "PatioAndPorchFeatures" JsVal.null),
      ("security_features", getSafe l "SecurityFeatures" JsVal.null),
      ("pool_features", getSafe l "PoolFeatures" JsVal.null),
      ("roof_features", getSafe l "RoofFeatures" JsVal.null),
      ("parking_total", getSafe l "ParkingTotal" JsVal.null),
      ("year_built", getSafe l "YearBuilt" JsVal.null),
      ("zoning", getSafe l "ZoningDescription" JsVal.null),
      ("standard_status", getSafe l "StandardStatus" JsVal.null),
      ("mls_status", getSafe l "MlsStatus" JsVal.null),
      ("days_on_market", getSafe l "DaysOnMarket" (JsVal.num 0)),
      ("listing_contract_date", getSafe l "ListingContractDate" JsVal.null),
      ("neighborhood", getSafe l "SubdivisionName" JsVal.null),
      ("public_remarks", getSafe l "PublicRemarks" JsVal.null),
      ("subdivision_name", getSafe l "SubdivisionName" JsVal.null),
      ("main_image_url", JsVal.str mainImg),
      ("list_agent_full_name", getSafe l "ListAgentFullName" JsVal.null),
      ("list_office_name", getSafe l "ListOfficeName" JsVal.null),
      ("list_agent_email", getSafe l "ListAgentEmail" JsVal.null),
      ("list_agent_phone", getSafe l "ListAgentDirectPhone" JsVal.null),
      ("lease_considered", getSafe l "LeaseConsideredYN" (JsVal.bool false)),
      ("lease_amount_frequency", getSafe l "LeaseAmountFrequency" JsVal.null),
      ("modification_timestamp", getSafe l "ModificationTimestamp" JsVal.null),
      ("on_market_timestamp", getSafe l "OnMarketTimestamp" JsVal.null),
      ("agent_phone", getSafe l "ListAgentOfficePhone" JsVal.null),
      ("agent_email", getSafe l "ListAgentEmail" JsVal.null),
      ("agent_office_email", getSafe l "ListOfficeEmail" JsVal.null),
      ("agent_office_phone", getSafe l "ListOfficePhone" JsVal.null),
      ("ListAgentLastName", getSafe l "ListAgentLastName" JsVal.null),
      ("ListAgentURL", getSafe l "ListAgentURL" JsVal.null),
      ("possible_use", getSafe l "PossibleUse" JsVal.null),
      ("price_change_timestamp", getSafe l "PriceChangeTimestamp" JsVal.null),
      ("virtual_url", getSafe l "VirtualTourURLUnbranded" JsVal.null),
      ("view", getSafe l "View" JsVal.null),
      ("utilities", getSafe l "Utilities" JsVal.null),
      ("lot_features", getSafe l "LotFeatures" JsVal.null),
      ("showing_contact_name", getSafe l "ShowingContactName" JsVal.null),
      ("current_price", getSafe l "CurrentPrice" JsVal.null),
      ("rent_control_yn", getSafe l "RentControlYN" JsVal.null),
      ("rent_includes", getSafe l "RentIncludes" JsVal.null),
      ("pets_allowed", getSafe l "PetsAllowed" JsVal.null),
      ("land_lease_amount", getSafe l "LandLeaseAmount" JsVal.null),
      ("land_lease_amount_frequency", getSafe l "LandLeaseAmountFrequency" JsVal.null),
      ("available_lease_type", getSafe l "AvailableLeaseType" JsVal.null),
      ("showing_days", getSafe l "ShowingDays" JsVal.null),
      ("showing_instructions", getSafe l "ShowingInstructions" JsVal.null),
      ("showing_contact_phone", getSafe l "ShowingContactPhone" JsVal.null),
      ("showing_requirements", getSafe l "ShowingRequirements" JsVal.null),
      ("start_showing_date", getSafe l "StartShowingDate" JsVal.null),
      ("end_showing_time", getSafe l "ShowingEndTime" JsVal.null),
      ("showing_start_time", getSafe l "ShowingStartTime" JsVal.null) ]
  other_info := otherInfo l

/-! ### Per-listing processing (`processListingSequential`, lines 270-429)

The per-attempt outcomes of the image pipeline and of the
`listing_images` insert are oracles indexed by the loop index `idx`:
`up idx` is whether `processImageUpload` returns a URL for attempt
`idx`, `ins idx` whether the corresponding `insertOne` succeeds. -/

/-- Oracle for one listing pass: image-pipeline success and insert
success per media index. -/
structure PassEnv where
  up : Nat → Bool
  ins : Nat → Bool

/-- The media URLs of a listing:
`getSafe(listing,'Media',[]).filter(m => 'MediaURL' in m).map(m => m.MediaURL)`
(lines 285-288). -/
def imageUrlsOf : JsVal → List String
  | .media items => items.filterMap id
  | _ => []

/-- The upload loop of `processListingSequential` (lines 301-326): walk
the media URLs while fewer than `numToUpload` images have been inserted;
a successful pipeline run whose storage URL is not in the
start-of-pass URL set and whose insert succeeds appends a row, and the
first such insert fixes the main image URL. -/
def uploadImagesLoop (env : PassEnv) (lk : JsVal) (existingSet : List String) :
    List String → Nat → Nat → Nat → ImagesDB → String → ImagesDB × String
  | [], _, _, _, db, mainImg => (db, mainImg)
  | url :: rest, idx, uploadedCount, numToUpload, db, mainImg =>
    if uploadedCount < numToUpload then
      if env.up idx then
        let g := gcsUrl url
        if g ∈ existingSet then
          uploadImagesLoop env lk existingSet rest (idx + 1) uploadedCount numToUpload db mainImg
        else if env.ins idx then
          uploadImagesLoop env lk existingSet rest (idx + 1) (uploadedCount + 1) numToUpload
            (db ++ [⟨lk, g, true⟩]) (if uploadedCount = 0 then g else mainImg)
        else
          uploadImagesLoop env lk existingSet rest (idx + 1) uploadedCount numToUpload db mainImg
      else
        uploadImagesLoop env lk existingSet rest (idx + 1) uploadedCount numToUpload db mainImg
    else (db, mainImg)

/-- The main image resolved for a listing whose stored image count is
already at the cap: `findOne` then `image_url || ''`, or `''` when no
row exists (lines 328-333). -/
def mainFromStored (db : ImagesDB) (k : JsVal) : String :=
  match findOneImage db k with
  | some row => row.image_url
  | none => ""

/-- Embedding of `processListingSequential` (lines 270-429).  A record
with a falsy `ListingKey` is skipped.  Otherwise, when fewer than 10
rows are stored for the key, up to `10 - count` images are uploaded and
registered; when 10 or more are stored, no image work happens and the
main image comes from an existing row.  The result is the normalized
document (or `none`) together with the updated `listing_images`
collection.  The `isNewListing` argument is accepted and ignored, as in
the source. -/
def processListingSequential (env : PassEnv) (db : ImagesDB) (l : RawListing)
    (_isNew : Bool) : Option Doc × ImagesDB :=
  let lk := getSafe l "ListingKey" JsVal.null
  if truthy lk = false then (none, db)
  else
    let existingCount := countImages db lk
    let imageUrls := imageUrlsOf (getSafe l "Media" (JsVal.media []))
    if existingCount < 10 then
      let numToUpload := 10 - existingCount
      let existingSet := imageUrlsFor db lk
      let r := uploadImagesLoop env lk existingSet imageUrls 0 0 numToUpload db ""
      (some (mkDoc l lk r.2), r.1)
    else
      (some (mkDoc l lk (mainFromStored db lk)), db)

/-! ### Store reconciliation (`insertOrUpdateListingInMongoDB`, lines 529-605)

Only the document-store effects are modelled; the best-effort deletion
of storage objects for inactive listings (lines 544-579) touches no
collection and is omitted.  The `last_crawled` stamp (`$currentDate`)
is a timestamp side channel not represented in the document model. -/

/-- The stored document's key (`listing.listing_key`). -/
def docKey (d : Doc) : JsVal :=
  (lookupField d.entries "listing_key").getD JsVal.null

/-- The stored document's `standard_status` field. -/
def docStatus (d : Doc) : JsVal :=
  (lookupField d.entries "standard_status").getD JsVal.null

/-- `updateOne({'listing_key': key}, {$set: ...}, {upsert: true})`
(lines 591-598): replace the first document with the same key, or append
when none exists.  The `$set` carries every field of the new document
(after `delete updateFields.images`, a no-op: the document never has an
`images` field), so replacement is whole-document. -/
def upsertListing : ListingsDB → Doc → ListingsDB
  | [], d => [d]
  | d0 :: rest, d =>
    if docKey d0 = docKey d then d :: rest else d0 :: upsertListing rest d

/-- `deleteOne({'listing_key': key})` (line 584): remove the first
matching document. -/
def deleteOneListing : ListingsDB → JsVal → ListingsDB
  | [], _ => []
  | d0 :: rest, k =>
    if docKey d0 = k then rest else d0 :: deleteOneListing rest k

/-- `mongoListings.find?`-style lookup of a stored document by key. -/
def lookupListing (ldb : ListingsDB) (k : JsVal) : Option Doc :=
  ldb.find? (fun d => docKey d = k)

/-- Embedding of `insertOrUpdateListingInMongoDB` (lines 529-605): a
document whose `standard_status` is not the string `Active` causes
deletion of the listing document and of all its image rows; otherwise
the document is upserted by key and the image collection is untouched. -/
def insertOrUpdateListingInMongoDB (ldb : ListingsDB) (idb : ImagesDB) (d : Doc) :
    ListingsDB × ImagesDB :=
  if docStatus d ≠ JsVal.str "Active" then
    (deleteOneListing ldb (docKey d), idb.filter (fun r => ¬ r.listing_key = docKey d))
  else
    (upsertListing ldb d, idb)

/-! ### One crawl cycle (`processListingsSequentially` + the save loop of
`crawlAndProcess`, lines 635-698) -/

/-- The truthy listing keys of a feed:
`listings.map(l => getSafe(l,'ListingKey')).filter(Boolean)` (line 640). -/
def listingKeys (feed : List RawListing) : List JsVal :=
  (feed.map (fun l => getSafe l "ListingKey" JsVal.null)).filter (fun k => truthy k)

/-- The body of `processListingsSequentially` (lines 650-663): process
each listing in order, threading the image collection and collecting the
produced documents; the per-listing oracle is indexed by feed position. -/
def processFeedLoop (env : Nat → PassEnv) (existing : List JsVal) :
    List RawListing → Nat → ImagesDB → List Doc → List Doc × ImagesDB
  | [], _, idb, accDocs => (accDocs, idb)
  | l :: rest, idx, idb, accDocs =>
    let lk := getSafe l "ListingKey" JsVal.null
    let isNew := ¬ (lk ∈ existing)
    let r := processListingSequential (env idx) idb l (decide isNew)
    match r.1 with
    | some d => processFeedLoop env existing rest (idx + 1) r.2 (accDocs ++ [d])
    | none => processFeedLoop env existing rest (idx + 1) r.2 accDocs

/-- Embedding of `processListingsSequentially` (lines 636-666): the keys
already present in the listings collection are fetched once for the
batch, then each listing is processed sequentially. -/
def processListingsSequentially (env : Nat → PassEnv) (ldb : ListingsDB)
    (idb : ImagesDB) (feed : List RawListing) : List Doc × ImagesDB :=
  let keys := listingKeys feed
  let existing := keys.filter (fun k => (lookupListing ldb k).isSome)
  processFeedLoop env existing feed 0 idb []

/-- The save loop of `crawlAndProcess` (lines 689-692): reconcile each
produced document in order. -/
def saveAll : ListingsDB → ImagesDB → List Doc → ListingsDB × ImagesDB
  | ldb, idb, [] => (ldb, idb)
  | ldb, idb, d :: ds =>
    let r := insertOrUpdateListingInMongoDB ldb idb d
    saveAll r.1 r.2 ds

/-- One crawl cycle over an already-fetched feed (the processing and
saving phases of `crawlAndProcess`, lines 682-692; an empty feed
short-circuits to no work, which coincides with folding over nothing). -/
def crawlCycle (env : Nat → PassEnv) (st : ListingsDB × ImagesDB)
    (feed : List RawListing) : ListingsDB × ImagesDB :=
  let r := processListingsSequentially env st.1 st.2 feed
  saveAll st.1 r.2 r.1

/-- Any number of scheduled crawl cycles, each with its own feed and
oracle. -/
def runCycles : List ((Nat → PassEnv) × List RawListing) →
    ListingsDB × ImagesDB → ListingsDB × ImagesDB
  | [], st => st
  | (env, feed) :: rest, st => runCycles rest (crawlCycle env st feed)

/-! ### Paged fetching (`fetchPage` / `getAllActiveListings`, lines 432-526)

Configuration defaults from lines 45-48: `API_PAGE_SIZE = 1000`,
`API_MAX_PAGES = 10`, `CONCURRENT_REQUESTS = 10`.  The response of the
listings endpoint for a given URL is an oracle: a thrown request error
(with its HTTP status; axios-retry has already exhausted its attempts
by the time `fetchPage` rethrows) or a body with `value` and an optional
`@odata.nextLink`. -/

def API_PAGE_SIZE : Nat := 1000
def API_MAX_PAGES : Nat := 10
def CONCURRENT_REQUESTS : Nat := 10

/-- The listings endpoint URL (`API_BASE_URL + '/Property'`, line 476). -/
def baseUrl : String := "https://api-trestle.corelogic.com/trestle/odata/Property"

/-- Outcome of one `fetchPage` call: a rejection (network error or HTTP
error status) or a page body. -/
inductive PageResult where
  | err (status : Nat)
  | ok (value : List RawListing) (nextLink : Option String)
  deriving DecidableEq, Repr

/-- The page-response oracle, keyed by request URL. -/
structure FetchEnv where
  page : String → PageResult

/-- One issued page request: the URL and the `$top` page-size parameter
sent with it (`url === baseUrl ? params : null`, line 495). -/
structure Request where
  url : String
  top : Option Nat
  deriving DecidableEq, Repr

def mkReq (u : String) : Request :=
  ⟨u, if u = baseUrl then some API_PAGE_SIZE else none⟩

/-- Number of successful results in a batch — the amount `pageCount`
grows by in the result loop (line 510). -/
def numOk : List PageResult → Nat
  | [] => 0
  | .err _ :: rs => numOk rs
  | .ok _ _ :: rs => numOk rs + 1

/-- The listings contributed by a batch of results, in arrival order:
failed pages contribute nothing (lines 502-509). -/
def flatOk : List PageResult → List RawListing
  | [] => []
  | .err _ :: rs => flatOk rs
  | .ok v _ :: rs => v ++ flatOk rs

/-- The continuation links enqueued from a batch of results
(lines 514-517). -/
def linksOf : List PageResult → List String
  | [] => []
  | .err _ :: rs => linksOf rs
  | .ok _ none :: rs => linksOf rs
  | .ok _ (some u) :: rs => u :: linksOf rs

/-- The `while (nextUrls.length > 0 && pageCount < API_MAX_PAGES)` loop of
`getAllActiveListings` (lines 483-522): splice up to
`CONCURRENT_REQUESTS` URLs, request them, then fold the arrived results
in order — a failed page is skipped, a successful page appends its
listings, bumps `pageCount` and enqueues its continuation link.  The
loop-head condition is checked per batch, exactly as in the source. -/
def fetchLoop (env : FetchEnv) (maxPages : Nat) (queue : List String)
    (pageCount : Nat) (acc : List RawListing) (reqs : List Request) :
    List RawListing × Nat × List Request :=
  if h : queue = [] ∨ maxPages ≤ pageCount then (acc, pageCount, reqs)
  else
    let batch := queue.take CONCURRENT_REQUESTS
    let results := batch.map env.page
    fetchLoop env maxPages (queue.drop CONCURRENT_REQUESTS ++ linksOf results)
      (pageCount + numOk results) (acc ++ flatOk results)
      (reqs ++ batch.map mkReq)
  termination_by (maxPages - pageCount, queue.length)
  decreasing_by
    push_neg at h
    obtain ⟨hq, hpc⟩ := h
    rcases Nat.eq_zero_or_pos (numOk ((queue.take CONCURRENT_REQUESTS).map env.page)) with hz | hp
    · apply Prod.Lex.right'
      · omega
      · have hle : ∀ rs : List PageResult, (linksOf rs).length ≤ numOk rs := by
          intro rs
          induction rs with
          | nil => simp [linksOf, numOk]
          | cons r rs ih =>
            cases r with
            | err s => simpa [linksOf, numOk] using ih
            | ok v nl =>
              cases nl with
              | none => simp [linksOf, numOk]; omega
              | some u => simp [linksOf, numOk]; omega
        have hlinks : (linksOf ((queue.take CONCURRENT_REQUESTS).map env.page)).length = 0 := by
          have := hle ((queue.take CONCURRENT_REQUESTS).map env.page)
          omega
        have hqlen : 0 < queue.length := List.length_pos.mpr hq
        have hdrop : (queue.drop CONCURRENT_REQUESTS).length = queue.length - CONCURRENT_REQUESTS :=
          List.length_drop _ _
        have : CONCURRENT_REQUESTS = 10 := rfl
        simp only [List.length_append]
        omega
    · apply Prod.Lex.left
      omega

/-- Embedding of `getAllActiveListings` (lines 450-526).  The record of
one run: the returned listings, the final `pageCount`, the page requests
issued in order, the number of HTTP token requests made, the token state
after the run, and whether the initial token check succeeded (on failure
the function logs and returns an empty list without fetching). -/
structure FetchRun where
  listings : List RawListing
  pageCount : Nat
  reqs : List Request
  tokenFetches : Nat
  tok : TokSt
  tokenOk : Bool
  deriving Repr

def getAllActiveListings (st : TokSt) (now : Int) (tresp : TokenResponse)
    (env : FetchEnv) : FetchRun :=
  let t := ensureValidToken now tresp st
  if t.2.1 = false then ⟨[], 0, [], t.2.2, t.1, false⟩
  else
    let r := fetchLoop env API_MAX_PAGES [baseUrl] 0 [] []
    ⟨r.1, r.2.1, r.2.2, t.2.2, t.1, true⟩

/-! ### Scheduler and crawl checkpoint (`crawlAndProcess` lines 669-698,
`main`/`scheduledTask` lines 701-714)

The body of `crawlAndProcess` is wrapped in `try/catch`; whether that
body completes or throws is abstracted as an `Except` parameter.  The
`catch` only logs (`logger.critical`) and falls through, so the function
always returns normally.  `scheduledTask` awaits it and then assigns
`lastCrawlTime = new Date()` — the time at which the cycle finished. -/

/-- The result of `crawlAndProcess` as seen by its caller, given whether
its body ran to completion or threw: the catch on lines 695-697 swallows
every error, so the returned promise always resolves. -/
def crawlAndProcess (body : Except String Unit) : Except String Unit :=
  match body with
  | Except.ok _ => Except.ok ()
  | Except.error _ => Except.ok ()

/-- Embedding of `scheduledTask` (lines 707-710): the checkpoint after a
cycle, given the previous checkpoint, the cycle body's outcome, and the
wall-clock time `tEnd` at which the `new Date()` on line 709 runs.  Had
`crawlAndProcess` rethrown, the assignment would be skipped and the
checkpoint kept. -/
def scheduledTask (lastCrawlTime : Option Int) (body : Except String Unit)
    (tEnd : Int) : Option Int :=
  match crawlAndProcess body with
  | Except.ok _ => some tEnd
  | Except.error _ => lastCrawlTime

/-- The checkpoint behaviour claimed by the specification: advanced to
the cycle's start time on success, left unchanged on a fatal error. -/
def checkpointPerSpec (lastCrawlTime : Option Int) (body : Except String Unit)
    (tStart tEnd : Int) : Prop :=
  scheduledTask lastCrawlTime body tEnd =
    match body with
    | Except.ok _ => some tStart
    | Except.error _ => lastCrawlTime

/-! ### Concurrent `ensureValidToken` callers (cooperative interleaving)

Two callers of `ensureValidToken` on the single-threaded event loop.
Code between `await` points runs atomically.  A caller's first atomic
block covers the validity check of `ensureValidToken` and, inside
`getTrestleToken`, the `_tokenLock` check up to issuing the HTTP POST
(there is no suspension between reading `_tokenLock` on line 170 and
setting it on line 179).  A caller that saw the lock held enters the
polling loop (lines 173-175); each poll iteration is one atomic block.
The refresher's completion block is the code after the `await` on line
194: it stores or preserves the token and releases the lock.  `fetches`
counts issued HTTP token requests. -/

/-- Shared mutable state: the token globals plus the count of issued
token requests. -/
structure Shared where
  tok : TokSt
  fetches : Nat
  deriving DecidableEq, Repr

/-- Program counter of one `ensureValidToken` caller. -/
inductive ThreadPC where
  | start
  | waiting
  | refreshing
  | done (res : Bool)
  deriving DecidableEq, Repr

/-- One atomic step of one caller at time `now`, with `resp` the response
its own HTTP request would receive. -/
def stepThread (now : Int) (resp : TokenResponse) (sh : Shared) :
    ThreadPC → Shared × ThreadPC
  | .start =>
    if tokenValid sh.tok now then (sh, .done true)
    else if sh.tok.lock then (sh, .waiting)
    else (⟨⟨sh.tok.token, sh.tok.expires, true⟩, sh.fetches + 1⟩, .refreshing)
  | .waiting =>
    if sh.tok.lock then (sh, .waiting)
    else (sh, .done sh.tok.token.isSome)
  | .refreshing =>
    match resp with
    | .ok (some a) (some e) =>
      (⟨⟨some a, some (now + e * 1000), false⟩, sh.fetches⟩, .done true)
    | .ok _ _ => (⟨⟨sh.tok.token, sh.tok.expires, false⟩, sh.fetches⟩, .done false)
    | .netErr => (⟨⟨sh.tok.token, sh.tok.expires, false⟩, sh.fetches⟩, .done false)
  | .done r => (sh, .done r)

/-- A two-caller system: the shared state and both program counters. -/
structure Sys where
  sh : Shared
  pc0 : ThreadPC
  pc1 : ThreadPC
  deriving DecidableEq, Repr

/-- Scheduler step: `false` steps caller 0, `true` steps caller 1. -/
def stepSys (now : Int) (resp0 resp1 : TokenResponse) (s : Sys) (who : Bool) : Sys :=
  if who then
    let r := stepThread now resp1 s.sh s.pc1
    ⟨r.1, s.pc0, r.2⟩
  else
    let r := stepThread now resp0 s.sh s.pc0
    ⟨r.1, r.2, s.pc1⟩

/-- Run a schedule of interleaved steps. -/
def runSched (now : Int) (resp0 resp1 : TokenResponse) (sched : List Bool) (s : Sys) : Sys :=
  sched.foldl (stepSys now resp0 resp1) s

/-- Number of callers whose HTTP refresh is currently in flight. -/
def refreshingCount (s : Sys) : Nat :=
  (if s.pc0 = ThreadPC.refreshing then 1 else 0) +
    (if s.pc1 = ThreadPC.refreshing then 1 else 0)

/-- Invariant of the two-caller system once both callers have taken
their first step in a state that required a refresh: one token request
has been issued in total, and a caller's refresh is in flight exactly
while the lock is held. -/
def InvTok (s : Sys) : Prop :=
  s.sh.fetches = 1 ∧ s.pc0 ≠ ThreadPC.start ∧ s.pc1 ≠ ThreadPC.start ∧
    refreshingCount s = (if s.sh.tok.lock then 1 else 0)

/-! ### Specification-side definitions used to state claims -/

/-- The upstream field names consumed by the normalization mapping on
lines 336-418 (including `Media`, consumed by the image pipeline).  Used
to state what the specification calls the "unrecognized" upstream
fields. -/
def recognizedKeys : List String :=
  [ "ListingKey", "ListingId", "ListPrice", "OriginalListPrice",
    "PreviousListPrice", "LeaseAmount", "UnparsedAddress", "City",
    "CountyOrParish", "PostalCode", "Latitude", "Longitude",
    "PropertyType", "PropertySubType", "BedroomsTotal",
    "BathroomsTotalInteger", "RoomsTotal", "LivingArea",
    "LotSizeSquareFeet", "SaleOrLeaseIndicator", "HighSchool", "Cooling",
    "Heating", "HeatingYN", "Stories", "AccessibilityFeatures",
    "InteriorFeatures", "GarageYN", "GarageSpaces", "DoorFeatures",
    "LaundryFeatures", "ParkingFeatures", "ExteriorFeatures",
    "PatioAndPorchFeatures", "SecurityFeatures", "PoolFeatures",
    "RoofFeatures", "ParkingTotal", "YearBuilt", "ZoningDescription",
    "StandardStatus", "MlsStatus", "DaysOnMarket", "ListingContractDate",
    "SubdivisionName", "PublicRemarks", "ListAgentFullName",
    "ListOfficeName", "ListAgentEmail", "ListAgentDirectPhone",
    "LeaseConsideredYN", "LeaseAmountFrequency", "ModificationTimestamp",
    "OnMarketTimestamp", "ListAgentOfficePhone", "ListOfficeEmail",
    "ListOfficePhone", "ListAgentLastName", "ListAgentURL", "PossibleUse",
    "PriceChangeTimestamp", "VirtualTourURLUnbranded", "View",
    "Utilities", "LotFeatures", "ShowingContactName", "CurrentPrice",
    "RentControlYN", "RentIncludes", "PetsAllowed", "LandLeaseAmount",
    "LandLeaseAmountFrequency", "AvailableLeaseType", "ShowingDays",
    "ShowingInstructions", "ShowingContactPhone", "ShowingRequirements",
    "StartShowingDate", "ShowingEndTime", "ShowingStartTime", "Media" ]

/-- The catch-all bag as the specification describes it: exactly the
upstream fields whose names the mapping does not recognize, keyed by
their original names.  This follows the spec's words, for comparison
with `otherInfo` (which embeds the source). -/
def otherInfoPerSpec (l : RawListing) : List (String × JsVal) :=
  l.filter (fun p => ¬ p.1 ∈ recognizedKeys)

/-! ### Concrete fixtures for witnesses and counterexamples -/

/-- Oracle in which every image pipeline run and insert succeeds. -/
def envAllOk : PassEnv := ⟨fun _ => true, fun _ => true⟩

/-- Per-listing oracle assignment where everything succeeds. -/
def envW : Nat → PassEnv := fun _ => envAllOk

/-- Oracle in which every image pipeline run fails (downloads fail). -/
def envNoUp : PassEnv := ⟨fun _ => false, fun _ => true⟩

/-- An active listing whose media list names the same source URL twice. -/
def lA : RawListing :=
  [ ("ListingKey", JsVal.str "A"),
    ("StandardStatus", JsVal.str "Active"),
    ("Media", JsVal.media [some "http://x/a.jpg", some "http://x/a.jpg"]) ]

/-- A minimal listing with key `K` and no media. -/
def lK : RawListing := [("ListingKey", JsVal.str "K")]

/-- An active listing with key `K` and one media URL. -/
def lKm : RawListing :=
  [ ("ListingKey", JsVal.str "K"),
    ("StandardStatus", JsVal.str "Active"),
    ("Media", JsVal.media [some "http://x/p.jpg"]) ]

/-- An image collection already holding ten rows for key `K`. -/
def db10 : ImagesDB := List.replicate 10 ⟨JsVal.str "K", "https://storage.googleapis.com/real-estate-images/properties/u.jpg", true⟩

/-- An image collection holding one row for key `K`. -/
def dbK1 : ImagesDB := [⟨JsVal.str "K", "https://storage.googleapis.com/real-estate-images/properties/old.jpg", true⟩]

/-- A raw record with one recognized truthy field and one unrecognized
falsy field. -/
def l9 : RawListing := [("ListingKey", JsVal.str "A1"), ("CustomField", JsVal.num 0)]

/-- A cached token with ample validity at time 0. -/
def tokValidSt : TokSt := ⟨some "tok", some 1000000000, false⟩

/-- Listings-endpoint oracle rejecting every page with HTTP 401. -/
def env401 : FetchEnv := ⟨fun _ => PageResult.err 401⟩

/-- A one-field raw listing returned by the first page below. -/
def rawL1 : RawListing := [("ListingKey", JsVal.str "L1")]

/-- Listings-endpoint oracle: the first page succeeds with a continuation
link, and every further request is rejected with HTTP 401. -/
def env401b : FetchEnv :=
  ⟨fun u => if u = baseUrl then PageResult.ok [rawL1] (some "next1") else PageResult.err 401⟩

/-- A two-caller token system holding a stale (within five minutes of
expiry) cached token at time 0, both callers about to run. -/
def staleSys : Sys := ⟨⟨⟨some "old", some 200000, false⟩, 0⟩, ThreadPC.start, ThreadPC.start⟩

/-- The image cap invariant: at most ten stored image rows per listing
key. -/
def imageCapped (idb : ImagesDB) : Prop := ∀ k, countImages idb k ≤ 10

/-! ## Theorems -/

/-- C1, counterexample.  The claimed checkpoint discipline — advance to
the cycle's start time on success, keep the old checkpoint on a fatal
error — is false on the code at a concrete input: with previous
checkpoint 50, cycle start time 100 and cycle end time 200, a successful
cycle sets the checkpoint to 200 (not 100), and a cycle whose body
throws also sets it to 200 (not 50). -/
theorem c1_counterexample :
    ¬ checkpointPerSpec (some 50) (Except.ok ()) 100 200 ∧
      ¬ checkpointPerSpec (some 50) (Except.error "boom") 100 200 := by
  constructor <;> simp [checkpointPerSpec, scheduledTask, crawlAndProcess]

/-- C1, amended.  `crawlAndProcess` catches every error of its body and
returns normally, so `scheduledTask` advances the checkpoint after every
cycle — fatal error or not — and sets it to the time at which the cycle
finished, not the cycle's start time. -/
theorem c1_checkpoint_advance :
    ∀ (lastCrawlTime : Option Int) (body : Except String Unit) (tEnd : Int),
      crawlAndProcess body = Except.ok () ∧
        scheduledTask lastCrawlTime body tEnd = some tEnd := by
  intro cp body tEnd
  cases body <;> simp [crawlAndProcess, scheduledTask]

/-- C6.  A failed token refresh — network error, non-2xx response, or a
response missing `access_token` or `expires_in` — reports failure and
leaves the previously cached token value and expiry exactly as they
were, after performing its single HTTP request. -/
theorem c6_failed_refresh_preserves_token :
    ∀ (st : TokSt) (now : Int) (resp : TokenResponse),
      st.lock = false → respFails resp = true →
      (getTrestleToken now resp st).1.token = st.token ∧
        (getTrestleToken now resp st).1.expires = st.expires ∧
        (getTrestleToken now resp st).2.1 = false ∧
        (getTrestleToken now resp st).2.2 = 1 := by
  intro st now resp hlock hfail
  cases resp with
  | netErr => simp [getTrestleToken, hlock]
  | ok a e =>
    cases a with
    | none => simp [getTrestleToken, hlock]
    | some a =>
      cases e with
      | none => simp [getTrestleToken, hlock]
      | some e => simp [respFails] at hfail

/-- C6, witness: a network error at time 0 with a cached token leaves
that token and its expiry in place. -/
theorem c6_failed_refresh_witness :
    (getTrestleToken 0 TokenResponse.netErr ⟨some "tok", some 1000000, false⟩).1.token = some "tok" ∧
      (getTrestleToken 0 TokenResponse.netErr ⟨some "tok", some 1000000, false⟩).1.expires = some 1000000 ∧
      (getTrestleToken 0 TokenResponse.netErr ⟨some "tok", some 1000000, false⟩).2.1 = false ∧
      (getTrestleToken 0 TokenResponse.netErr ⟨some "tok", some 1000000, false⟩).2.2 = 1 :=
  c6_failed_refresh_preserves_token ⟨some "tok", some 1000000, false⟩ 0 TokenResponse.netErr rfl rfl

/-- C2, code-bug evidence.  With a validly cached token, a page request
rejected with HTTP 401 triggers no token refresh at all: in a run where
the very first page is rejected with 401, zero token requests are issued
and the fetch returns normally with an empty result, and in a run where
the first page succeeds and its continuation is rejected with 401, zero
token requests are issued, the failed page is dropped and the fetch
returns the first page's listings.  The specified behaviour — an
authorization failure during paging triggers one retried token refresh
before the fetch halts — does not occur on any path: the only refresh
the fetcher can perform is the initial `ensureValidToken`, before any
page is requested. -/
theorem c2_auth_failure_no_refresh :
    ((getAllActiveListings tokValidSt 0 TokenResponse.netErr env401).tokenFetches = 0 ∧
      (getAllActiveListings tokValidSt 0 TokenResponse.netErr env401).reqs =
        [⟨baseUrl, some API_PAGE_SIZE⟩] ∧
      (getAllActiveListings tokValidSt 0 TokenResponse.netErr env401).listings = []) ∧
    ((getAllActiveListings tokValidSt 0 TokenResponse.netErr env401b).tokenFetches = 0 ∧
      (getAllActiveListings tokValidSt 0 TokenResponse.netErr env401b).reqs =
        [⟨baseUrl, some API_PAGE_SIZE⟩, ⟨"next1", none⟩] ∧
      (getAllActiveListings tokValidSt 0 TokenResponse.netErr env401b).listings = [rawL1] ∧
      (getAllActiveListings tokValidSt 0 TokenResponse.netErr env401b).pageCount = 1) := by
  constructor
  · simp [getAllActiveListings, ensureValidToken, tokenValid, tokValidSt, tokenRefreshThreshold,
      fetchLoop, env401, numOk, flatOk, linksOf, mkReq, CONCURRENT_REQUESTS, API_MAX_PAGES]
  · simp [getAllActiveListings, ensureValidToken, tokenValid, tokValidSt, tokenRefreshThreshold,
      fetchLoop, env401b, numOk, flatOk, linksOf, mkReq, CONCURRENT_REQUESTS, API_MAX_PAGES,
      baseUrl]

/-- Dichotomy for a caller that has already started: a step of a
refreshing caller completes its refresh (releasing the lock, issuing no
new request); a step of any other non-start caller leaves the shared
state untouched and never enters the refreshing state. -/
theorem stepThread_nonstart (now : Int) (resp : TokenResponse) (sh : Shared)
    (pc : ThreadPC) (hpc : pc ≠ ThreadPC.start) :
    (pc = ThreadPC.refreshing ∧
      (stepThread now resp sh pc).2 ≠ ThreadPC.refreshing ∧
      (stepThread now resp sh pc).2 ≠ ThreadPC.start ∧
      (stepThread now resp sh pc).1.tok.lock = false ∧
      (stepThread now resp sh pc).1.fetches = sh.fetches) ∨
    (pc ≠ ThreadPC.refreshing ∧
      (stepThread now resp sh pc).1 = sh ∧
      (stepThread now resp sh pc).2 ≠ ThreadPC.refreshing ∧
      (stepThread now resp sh pc).2 ≠ ThreadPC.start) := by
  cases pc with
  | start => exact absurd rfl hpc
  | waiting =>
    right
    refine ⟨by simp, ?_, ?_, ?_⟩ <;> by_cases hl : sh.tok.lock <;> simp [stepThread, hl]
  | refreshing =>
    left
    cases resp with
    | netErr => simp [stepThread]
    | ok a e => cases a <;> cases e <;> simp [stepThread]
  | done r =>
    right
    simp [stepThread]

/-- Each interleaved step preserves the single-flight invariant. -/
theorem stepSys_preserves_InvTok (now : Int) (r0 r1 : TokenResponse) (s : Sys) (w : Bool)
    (h : InvTok s) : InvTok (stepSys now r0 r1 s w) := by
  obtain ⟨hf, h0, h1, hrc⟩ := h
  cases w with
  | false =>
    rcases stepThread_nonstart now r0 s.sh s.pc0 h0 with ⟨hp, hnr, hns, hl, hfe⟩ | ⟨hp, hsh, hnr, hns⟩
    · have hlock : s.sh.tok.lock = true ∧ s.pc1 ≠ ThreadPC.refreshing := by
        by_cases hL : s.sh.tok.lock <;> by_cases hP : s.pc1 = ThreadPC.refreshing <;>
          simp [refreshingCount, hp, hL, hP] at hrc <;> simp_all
      refine ⟨by simp [stepSys, hfe, hf], by simp [stepSys, hns], by simp [stepSys]; exact h1, ?_⟩
      simp [stepSys, refreshingCount, hl, hnr, hlock.2]
    · refine ⟨by simp [stepSys, hsh, hf], by simp [stepSys, hns], by simp [stepSys]; exact h1, ?_⟩
      have heq : refreshingCount ⟨(stepThread now r0 s.sh s.pc0).1, (stepThread now r0 s.sh s.pc0).2, s.pc1⟩ =
          refreshingCount s := by
        simp [refreshingCount, hnr, hp]
      simp only [stepSys, Bool.false_eq_true, if_false]
      rw [heq, hsh]
      exact hrc
  | true =>
    rcases stepThread_nonstart now r1 s.sh s.pc1 h1 with ⟨hp, hnr, hns, hl, hfe⟩ | ⟨hp, hsh, hnr, hns⟩
    · have hlock : s.sh.tok.lock = true ∧ s.pc0 ≠ ThreadPC.refreshing := by
        by_cases hL : s.sh.tok.lock <;> by_cases hP : s.pc0 = ThreadPC.refreshing <;>
          simp [refreshingCount, hp, hL, hP] at hrc <;> simp_all
      refine ⟨by simp [stepSys, hfe, hf], by simp [stepSys]; exact h0, by simp [stepSys, hns], ?_⟩
      simp [stepSys, refreshingCount, hl, hnr, hlock.2]
    · refine ⟨by simp [stepSys, hsh, hf], by simp [stepSys]; exact h0, by simp [stepSys, hns], ?_⟩
      have heq : refreshingCount ⟨(stepThread now r1 s.sh s.pc1).1, s.pc0, (stepThread now r1 s.sh s.pc1).2⟩ =
          refreshingCount s := by
        simp [refreshingCount, hnr, hp]
      simp only [stepSys, if_true]
      rw [heq, hsh]
      exact hrc

theorem runSched_cons (now : Int) (r0 r1 : TokenResponse) (w : Bool) (ws : List Bool) (s : Sys) :
    runSched now r0 r1 (w :: ws) s = runSched now r0 r1 ws (stepSys now r0 r1 s w) := rfl

theorem runSched_preserves_InvTok (now : Int) (r0 r1 : TokenResponse) :
    ∀ (sched : List Bool) (s : Sys), InvTok s → InvTok (runSched now r0 r1 sched s) := by
  intro sched
  induction sched with
  | nil => intro s h; exact h
  | cons w ws ih =>
    intro s h
    rw [runSched_cons]
    exact ih _ (stepSys_preserves_InvTok now r0 r1 s w h)

/-- After both callers take their first step from a state that needs a
refresh (in either order), the single-flight invariant holds: one
request issued, one caller refreshing under the lock, the other
waiting. -/
theorem first_two_steps (now : Int) (r0 r1 : TokenResponse) (sh0 : Shared)
    (hl : sh0.tok.lock = false) (hv : tokenValid sh0.tok now = false) (hf : sh0.fetches = 0) :
    InvTok (stepSys now r0 r1 (stepSys now r0 r1 ⟨sh0, ThreadPC.start, ThreadPC.start⟩ false) true) ∧
    InvTok (stepSys now r0 r1 (stepSys now r0 r1 ⟨sh0, ThreadPC.start, ThreadPC.start⟩ true) false) := by
  obtain ⟨⟨t, e, lk⟩, f⟩ := sh0
  simp only at hl hf
  subst hl hf
  have hv2 : tokenValid ⟨t, e, true⟩ now = false := hv
  constructor
  · simp [stepSys, stepThread, hv, hv2, InvTok, refreshingCount]
  · simp [stepSys, stepThread, hv, hv2, InvTok, refreshingCount]

/-- C3, counterexample.  The claim that a waiter "observes the outcome"
of the in-flight refresh is false on the code at a concrete input: with
a cached token 200 seconds from expiry (inside the 5-minute threshold)
and a refresh that fails with a network error, the interleaving
(caller 0 starts the refresh, caller 1 begins waiting, the refresh
fails, caller 1 polls) ends with caller 0 reporting `false` — the
refresh's outcome — while caller 1 reports `true`, because the waiter
returns `_currentAccessToken !== null` and the stale token was (by C6's
behaviour) left in the cache. -/
theorem c3_counterexample :
    (runSched 0 TokenResponse.netErr TokenResponse.netErr [false, true, false, true] staleSys).pc0 =
        ThreadPC.done false ∧
      (runSched 0 TokenResponse.netErr TokenResponse.netErr [false, true, false, true] staleSys).pc1 =
        ThreadPC.done true ∧
      (runSched 0 TokenResponse.netErr TokenResponse.netErr [false, true, false, true] staleSys).sh.tok.token =
        some "old" := by
  decide

/-- C3, amended.  Single-flight refresh holds: (1) when two callers both
start while a refresh is needed (in either interleaving, under any
continuation schedule) exactly one HTTP token request is ever issued and
at no point is more than one refresh in flight; (2) a first call with no
cached token performs exactly one fetch, and a second call issued while
more than five minutes of validity remain is a cache hit performing no
fetch; (3) a waiter blocks while the lock is held and, once the refresh
resolves, returns whether a token is cached — which is the refresh's
outcome except when a failed refresh left a previously cached token in
place (see the counterexample). -/
theorem c3_single_flight :
    (∀ (now : Int) (resp0 resp1 : TokenResponse) (sh0 : Shared) (rest sched : List Bool),
      sh0.tok.lock = false → tokenValid sh0.tok now = false → sh0.fetches = 0 →
      (sched = false :: true :: rest ∨ sched = true :: false :: rest) →
      (runSched now resp0 resp1 sched ⟨sh0, ThreadPC.start, ThreadPC.start⟩).sh.fetches = 1 ∧
        ∀ n, refreshingCount
          (runSched now resp0 resp1 (sched.take n) ⟨sh0, ThreadPC.start, ThreadPC.start⟩) ≤ 1) ∧
    (∀ (now1 now2 : Int) (a : String) (e : Int) (resp2 : TokenResponse),
      (ensureValidToken now1 (TokenResponse.ok (some a) (some e)) ⟨none, none, false⟩).2.1 = true ∧
      (ensureValidToken now1 (TokenResponse.ok (some a) (some e)) ⟨none, none, false⟩).2.2 = 1 ∧
      (tokenValid (ensureValidToken now1 (TokenResponse.ok (some a) (some e)) ⟨none, none, false⟩).1 now2 = true →
        ensureValidToken now2 resp2 (ensureValidToken now1 (TokenResponse.ok (some a) (some e)) ⟨none, none, false⟩).1 =
          ((ensureValidToken now1 (TokenResponse.ok (some a) (some e)) ⟨none, none, false⟩).1, true, 0))) ∧
    (∀ (now : Int) (resp : TokenResponse) (sh : Shared),
      (sh.tok.lock = true → stepThread now resp sh ThreadPC.waiting = (sh, ThreadPC.waiting)) ∧
      (sh.tok.lock = false →
        stepThread now resp sh ThreadPC.waiting = (sh, ThreadPC.done sh.tok.token.isSome))) := by
  refine ⟨?_, ?_, ?_⟩
  · intro now r0 r1 sh0 rest sched hl hv hf hsched
    have base := first_two_steps now r0 r1 sh0 hl hv hf
    rcases hsched with rfl | rfl
    · constructor
      · rw [runSched_cons, runSched_cons]
        exact (runSched_preserves_InvTok now r0 r1 rest _ base.1).1
      · intro n
        match n with
        | 0 =>
          simp [runSched, refreshingCount]
        | 1 =>
          obtain ⟨⟨t, e, lk⟩, f⟩ := sh0
          simp only at hl hf
          subst hl hf
          simp [runSched, stepSys, stepThread, hv, refreshingCount, List.take]
        | (m + 2) =>
          have htake : (false :: true :: rest).take (m + 2) = false :: true :: rest.take m := rfl
          rw [htake, runSched_cons, runSched_cons]
          have hinv := runSched_preserves_InvTok now r0 r1 (rest.take m) _ base.1
          rcases hinv with ⟨-, -, -, hrc⟩
          rw [hrc]
          by_cases hL : (runSched now r0 r1 (rest.take m)
              (stepSys now r0 r1 (stepSys now r0 r1 ⟨⟨sh0.tok, sh0.fetches⟩, ThreadPC.start, ThreadPC.start⟩ false) true)).sh.tok.lock <;>
            simp [hL]
    · constructor
      · rw [runSched_cons, runSched_cons]
        exact (runSched_preserves_InvTok now r0 r1 rest _ base.2).1
      · intro n
        match n with
        | 0 =>
          simp [runSched, refreshingCount]
        | 1 =>
          obtain ⟨⟨t, e, lk⟩, f⟩ := sh0
          simp only at hl hf
          subst hl hf
          simp [runSched, stepSys, stepThread, hv, refreshingCount, List.take]
        | (m + 2) =>
          have htake : (true :: false :: rest).take (m + 2) = true :: false :: rest.take m := rfl
          rw [htake, runSched_cons, runSched_cons]
          have hinv := runSched_preserves_InvTok now r0 r1 (rest.take m) _ base.2
          rcases hinv with ⟨-, -, -, hrc⟩
          rw [hrc]
          by_cases hL : (runSched now r0 r1 (rest.take m)
              (stepSys now r0 r1 (stepSys now r0 r1 ⟨⟨sh0.tok, sh0.fetches⟩, ThreadPC.start, ThreadPC.start⟩ true) false)).sh.tok.lock <;>
            simp [hL]
  · intro now1 now2 a e resp2
    refine ⟨by simp [ensureValidToken, tokenValid, getTrestleToken],
      by simp [ensureValidToken, tokenValid, getTrestleToken], ?_⟩
    intro h
    simp only [ensureValidToken, tokenValid, getTrestleToken] at h ⊢
    simp_all
  · intro now resp sh
    constructor
    · intro h
      simp [stepThread, h]
    · intro h
      simp [stepThread, h]

/-- C3, witness: a concrete two-caller run needing a refresh issues
exactly one token request, and no prefix of it ever has two refreshes in
flight. -/
theorem c3_single_flight_witness :
    (runSched 0 TokenResponse.netErr TokenResponse.netErr [false, true, false, true]
        ⟨⟨⟨some "old", some 200000, false⟩, 0⟩, ThreadPC.start, ThreadPC.start⟩).sh.fetches = 1 ∧
      refreshingCount (runSched 0 TokenResponse.netErr TokenResponse.netErr
        ([false, true, false, true].take 3)
        ⟨⟨⟨some "old", some 200000, false⟩, 0⟩, ThreadPC.start, ThreadPC.start⟩) ≤ 1 := by
  have h := c3_single_flight.1 0 TokenResponse.netErr TokenResponse.netErr
    ⟨⟨some "old", some 200000, false⟩, 0⟩ [false, true] [false, true, false, true]
    rfl (by decide) rfl (Or.inl rfl)
  exact ⟨h.1, h.2 3⟩

/-- The upload loop only appends rows: the appended rows belong to the
listing key, avoid the start-of-pass URL set, number at most
`numToUpload - uploadedCount`, and when nothing is appended the main
image is unchanged. -/
theorem uploadImagesLoop_spec (env : PassEnv) (lk : JsVal) (set : List String) :
    ∀ (urls : List String) (idx uc num : Nat) (db : ImagesDB) (main : String),
      ∃ ext : ImagesDB,
        (uploadImagesLoop env lk set urls idx uc num db main).1 = db ++ ext ∧
        ext.length ≤ num - uc ∧
        (∀ r ∈ ext, r.listing_key = lk ∧ r.image_url ∉ set) ∧
        (ext = [] → (uploadImagesLoop env lk set urls idx uc num db main).2 = main) := by
  intro urls
  induction urls with
  | nil =>
    intro idx uc num db main
    exact ⟨[], by simp [uploadImagesLoop], by simp, by simp, fun _ => by simp [uploadImagesLoop]⟩
  | cons url rest ih =>
    intro idx uc num db main
    by_cases huc : uc < num
    · by_cases hup : env.up idx
      · by_cases hmem : gcsUrl url ∈ set
        · obtain ⟨ext, h1, h2, h3, h4⟩ := ih (idx + 1) uc num db main
          exact ⟨ext, by simpa [uploadImagesLoop, huc, hup, hmem] using h1, h2, h3,
            fun he => by simpa [uploadImagesLoop, huc, hup, hmem] using h4 he⟩
        · by_cases hins : env.ins idx
          · obtain ⟨ext, h1, h2, h3, h4⟩ := ih (idx + 1) (uc + 1) num (db ++ [⟨lk, gcsUrl url, true⟩])
              (if uc = 0 then gcsUrl url else main)
            refine ⟨⟨lk, gcsUrl url, true⟩ :: ext, ?_, by simp; omega, ?_, ?_⟩
            · simpa [uploadImagesLoop, huc, hup, hmem, hins] using h1
            · intro r hr
              rcases List.mem_cons.mp hr with rfl | hr
              · exact ⟨rfl, hmem⟩
              · exact h3 r hr
            · intro he
              simp at he
          · obtain ⟨ext, h1, h2, h3, h4⟩ := ih (idx + 1) uc num db main
            exact ⟨ext, by simpa [uploadImagesLoop, huc, hup, hmem, hins] using h1, h2, h3,
              fun he => by simpa [uploadImagesLoop, huc, hup, hmem, hins] using h4 he⟩
      · obtain ⟨ext, h1, h2, h3, h4⟩ := ih (idx + 1) uc num db main
        exact ⟨ext, by simpa [uploadImagesLoop, huc, hup] using h1, h2, h3,
          fun he => by simpa [uploadImagesLoop, huc, hup] using h4 he⟩
    · exact ⟨[], by simp [uploadImagesLoop, huc], by simp, by simp,
        fun _ => by simp [uploadImagesLoop, huc]⟩

theorem countImages_append (db ext : ImagesDB) (k : JsVal) :
    countImages (db ++ ext) k = countImages db k + countImages ext k := by
  simp [countImages, List.filter_append]

theorem countImages_keyed (ext : ImagesDB) (lk : JsVal)
    (h : ∀ r ∈ ext, r.listing_key = lk) (k : JsVal) :
    countImages ext k ≤ ext.length ∧ (k ≠ lk → countImages ext k = 0) := by
  constructor
  · exact List.length_filter_le _ _
  · intro hne
    simp only [countImages, List.length_eq_zero, List.filter_eq_nil_iff]
    intro r hr
    have := h r hr
    simp [this, hne.symm]

/-- One listing pass never pushes any key's stored-image count above the
maximum of its previous value and 10. -/
theorem processListingSequential_count (env : PassEnv) (db : ImagesDB) (l : RawListing)
    (b : Bool) (k : JsVal) :
    countImages (processListingSequential env db l b).2 k ≤ max (countImages db k) 10 := by
  simp only [processListingSequential]
  split_ifs with ht hc
  · exact le_max_left _ _
  · obtain ⟨ext, h1, h2, h3, h4⟩ := uploadImagesLoop_spec env (getSafe l "ListingKey" JsVal.null)
      (imageUrlsFor db (getSafe l "ListingKey" JsVal.null))
      (imageUrlsOf (getSafe l "Media" (JsVal.media []))) 0 0
      (10 - countImages db (getSafe l "ListingKey" JsVal.null)) db ""
    simp only [h1, countImages_append]
    obtain ⟨hle, hzero⟩ := countImages_keyed ext (getSafe l "ListingKey" JsVal.null)
      (fun r hr => (h3 r hr).1) k
    by_cases hk : k = getSafe l "ListingKey" JsVal.null
    · have hten : countImages db k + countImages ext k ≤ 10 := by
        rw [hk]
        rw [hk] at hle
        omega
      exact le_trans hten (le_max_right _ _)
    · rw [hzero hk]
      simpa using le_max_left _ _
  · exact le_max_left _ _

/-- Filtering an image collection never increases any key's count. -/
theorem countImages_filter_le (db : ImagesDB) (p : ImageRow → Bool) (k : JsVal) :
    countImages (db.filter p) k ≤ countImages db k := by
  simp only [countImages]
  exact List.Sublist.length_le (List.Sublist.filter _ (List.filter_sublist db))

/-- Reconciling documents into the store never increases any image
count. -/
theorem saveAll_count_le (k : JsVal) :
    ∀ (ds : List Doc) (ldb : ListingsDB) (idb : ImagesDB),
      countImages (saveAll ldb idb ds).2 k ≤ countImages idb k := by
  intro ds
  induction ds with
  | nil => intro ldb idb; simp [saveAll]
  | cons d rest ih =>
    intro ldb idb
    simp only [saveAll]
    unfold insertOrUpdateListingInMongoDB
    by_cases hs : docStatus d ≠ JsVal.str "Active"
    · rw [if_pos hs]
      exact le_trans (ih _ _) (countImages_filter_le _ _ _)
    · rw [if_neg hs]
      exact ih _ _

theorem processFeedLoop_capped (env : Nat → PassEnv) (existing : List JsVal) :
    ∀ (feed : List RawListing) (idx : Nat) (idb : ImagesDB) (acc : List Doc),
      imageCapped idb → imageCapped (processFeedLoop env existing feed idx idb acc).2 := by
  intro feed
  induction feed with
  | nil => intro idx idb acc h; simpa [processFeedLoop] using h
  | cons l rest ih =>
    intro idx idb acc h
    have hstep : ∀ b : Bool, imageCapped (processListingSequential (env idx) idb l b).2 := by
      intro b k
      exact le_trans (processListingSequential_count (env idx) idb l b k)
        (max_le (h k) le_rfl)
    simp only [processFeedLoop]
    cases hm : (processListingSequential (env idx) idb l
        (decide (¬ getSafe l "ListingKey" JsVal.null ∈ existing))).1 with
    | none => exact ih _ _ _ (hstep _)
    | some d => exact ih _ _ _ (hstep _)

theorem crawlCycle_capped (env : Nat → PassEnv) (st : ListingsDB × ImagesDB)
    (feed : List RawListing) (h : imageCapped st.2) :
    imageCapped (crawlCycle env st feed).2 := by
  intro k
  unfold crawlCycle processListingsSequentially
  exact le_trans (saveAll_count_le k _ _ _)
    (processFeedLoop_capped env _ feed 0 st.2 [] h k)

theorem runCycles_capped :
    ∀ (cycles : List ((Nat → PassEnv) × List RawListing)) (st : ListingsDB × ImagesDB),
      imageCapped st.2 → imageCapped (runCycles cycles st).2 := by
  intro cycles
  induction cycles with
  | nil => intro st h; exact h
  | cons c rest ih =>
    intro st h
    exact ih _ (crawlCycle_capped c.1 st c.2 h)

/-- C4.  Starting from an empty store, after any number of crawl cycles
with any feeds and any image-pipeline outcomes — including listings with
more than ten media URLs — no listing key ever has more than ten stored
image rows; and a pass over a listing whose stored count is already at
least ten leaves the image collection untouched and resolves the
document's `main_image_url` from an existing stored row (the first
found). -/
theorem c4_image_cap :
    (∀ (cycles : List ((Nat → PassEnv) × List RawListing)) (k : JsVal),
      countImages ((runCycles cycles ([], [])).2) k ≤ 10) ∧
    (∀ (env : PassEnv) (db : ImagesDB) (l : RawListing) (b : Bool),
      truthy (getSafe l "ListingKey" JsVal.null) = true →
      10 ≤ countImages db (getSafe l "ListingKey" JsVal.null) →
      processListingSequential env db l b =
        (some (mkDoc l (getSafe l "ListingKey" JsVal.null)
          (mainFromStored db (getSafe l "ListingKey" JsVal.null))), db)) := by
  constructor
  · intro cycles k
    exact runCycles_capped cycles ([], []) (fun j => by simp [countImages]) k
  · intro env db l b ht hc
    simp only [processListingSequential]
    rw [if_neg (by simp [ht]), if_neg (by omega)]

/-- C4, witness: one concrete cycle stays under the cap, and a listing
with ten stored rows is passed through untouched with its main image
taken from the store. -/
theorem c4_image_cap_witness :
    countImages ((runCycles [(envW, [lA])] ([], [])).2) (JsVal.str "A") ≤ 10 ∧
    processListingSequential envAllOk db10 lK true =
      (some (mkDoc lK (getSafe lK "ListingKey" JsVal.null)
        (mainFromStored db10 (getSafe lK "ListingKey" JsVal.null))), db10) :=
  ⟨c4_image_cap.1 [(envW, [lA])] (JsVal.str "A"),
   c4_image_cap.2 envAllOk db10 lK true (by decide) (by decide)⟩

theorem upsertListing_keys_mem (d : Doc) :
    ∀ (ldb : ListingsDB) (x : JsVal), x ∈ (upsertListing ldb d).map docKey →
      x ∈ ldb.map docKey ∨ x = docKey d := by
  intro ldb
  induction ldb with
  | nil => intro x hx; simp [upsertListing] at hx; exact Or.inr hx
  | cons d0 rest ih =>
    intro x hx
    by_cases hk : docKey d0 = docKey d
    · simp [upsertListing, hk] at hx
      rcases hx with rfl | hx
      · exact Or.inr rfl
      · exact Or.inl (by simp [hx])
    · simp [upsertListing, hk] at hx
      rcases hx with rfl | hx
      · exact Or.inl (by simp)
      · rcases ih x (by simpa using hx) with h | h
        · exact Or.inl (by simp [h])
        · exact Or.inr h

theorem upsertListing_nodup (d : Doc) :
    ∀ (ldb : ListingsDB), List.Nodup (ldb.map docKey) →
      List.Nodup ((upsertListing ldb d).map docKey) := by
  intro ldb
  induction ldb with
  | nil => intro _; simp [upsertListing]
  | cons d0 rest ih =>
    intro h
    simp only [List.map_cons, List.nodup_cons] at h
    by_cases hk : docKey d0 = docKey d
    · simp only [upsertListing, hk, if_true, List.map_cons, List.nodup_cons]
      exact ⟨hk ▸ h.1, h.2⟩
    · simp only [upsertListing, hk, if_false, List.map_cons, List.nodup_cons]
      refine ⟨?_, ih h.2⟩
      intro hmem
      rcases upsertListing_keys_mem d rest (docKey d0) hmem with hm | hm
      · exact h.1 hm
      · exact hk hm

theorem deleteOneListing_sublist (k : JsVal) :
    ∀ (ldb : ListingsDB), List.Sublist (deleteOneListing ldb k) ldb := by
  intro ldb
  induction ldb with
  | nil => simp [deleteOneListing]
  | cons d0 rest ih =>
    by_cases hk : docKey d0 = k
    · simp only [deleteOneListing, hk, if_true]
      exact List.sublist_cons_self d0 rest
    · simp only [deleteOneListing, hk, if_false]
      exact List.Sublist.cons₂ d0 ih

theorem saveAll_nodup :
    ∀ (ds : List Doc) (ldb : ListingsDB) (idb : ImagesDB),
      List.Nodup (ldb.map docKey) → List.Nodup ((saveAll ldb idb ds).1.map docKey) := by
  intro ds
  induction ds with
  | nil => intro ldb idb h; simpa [saveAll] using h
  | cons d rest ih =>
    intro ldb idb h
    simp only [saveAll]
    unfold insertOrUpdateListingInMongoDB
    by_cases hs : docStatus d ≠ JsVal.str "Active"
    · rw [if_pos hs]
      exact ih _ _ ((List.Sublist.map docKey (deleteOneListing_sublist (docKey d) ldb)).nodup h)
    · rw [if_neg hs]
      exact ih _ _ (upsertListing_nodup d ldb h)

theorem runCycles_nodup :
    ∀ (cycles : List ((Nat → PassEnv) × List RawListing)) (st : ListingsDB × ImagesDB),
      List.Nodup (st.1.map docKey) → List.Nodup ((runCycles cycles st).1.map docKey) := by
  intro cycles
  induction cycles with
  | nil => intro st h; exact h
  | cons c rest ih =>
    intro st h
    exact ih _ (saveAll_nodup _ _ _ h)

/-- C5, amended.  Across any number of crawl cycles from an empty store
there is never more than one listing document per listing key (keyed
upsert), and every image row appended during a listing pass has a
storage URL different from every URL already stored for that key at the
start of the pass.  (A single pass can still insert two identical rows
when two media entries derive the same storage URL, because the dedup
set is not refreshed inside the loop — see the counterexample.) -/
theorem c5_keyed_upsert_dedup :
    (∀ (cycles : List ((Nat → PassEnv) × List RawListing)),
      List.Nodup (((runCycles cycles ([], [])).1).map docKey)) ∧
    (∀ (env : PassEnv) (db : ImagesDB) (l : RawListing) (b : Bool),
      ∃ ext : ImagesDB, (processListingSequential env db l b).2 = db ++ ext ∧
        ∀ r ∈ ext, r.image_url ∉ imageUrlsFor db r.listing_key) := by
  constructor
  · intro cycles
    exact runCycles_nodup cycles ([], []) (by simp)
  · intro env db l b
    simp only [processListingSequential]
    split_ifs with ht hc
    · exact ⟨[], by simp, by simp⟩
    · obtain ⟨ext, h1, h2, h3, h4⟩ := uploadImagesLoop_spec env (getSafe l "ListingKey" JsVal.null)
        (imageUrlsFor db (getSafe l "ListingKey" JsVal.null))
        (imageUrlsOf (getSafe l "Media" (JsVal.media []))) 0 0
        (10 - countImages db (getSafe l "ListingKey" JsVal.null)) db ""
      refine ⟨ext, h1, ?_⟩
      intro r hr
      obtain ⟨hkey, hurl⟩ := h3 r hr
      rw [hkey]
      exact hurl
    · exact ⟨[], by simp, by simp⟩

/-- C5, counterexample.  The claim that two consecutive cycles over an
unchanged feed produce no duplicate `(listing_key, image_url)` rows is
false on the code at a concrete input: a feed whose single listing lists
the same media URL twice yields two identical stored rows (both inserted
by the first cycle, whose in-pass dedup set is computed once and never
refreshed), and they are still present after the second cycle. -/
theorem c5_counterexample :
    ¬ List.Nodup (((runCycles [(envW, [lA]), (envW, [lA])] ([], [])).2).map
      (fun r => (r.listing_key, r.image_url))) := by
  decide

/-- C5, witness: a concrete cycle's listing store has pairwise-distinct
keys. -/
theorem c5_keyed_upsert_dedup_witness :
    List.Nodup (((runCycles [(envW, [lA])] ([], [])).1).map docKey) :=
  c5_keyed_upsert_dedup.1 [(envW, [lA])]

theorem lookupListing_upsert (d : Doc) :
    ∀ ldb : ListingsDB, lookupListing (upsertListing ldb d) (docKey d) = some d := by
  intro ldb
  induction ldb with
  | nil => simp [upsertListing, lookupListing, List.find?]
  | cons d0 rest ih =>
    by_cases hk : docKey d0 = docKey d
    · simp [upsertListing, hk, lookupListing, List.find?]
    · simp only [upsertListing, hk, if_false]
      simpa [lookupListing, List.find?, hk] using ih

theorem mkDoc_main_lookup (l : RawListing) (lk : JsVal) (m : String) :
    lookupField (mkDoc l lk m).entries "main_image_url" = some (JsVal.str m) := by
  simp [mkDoc, lookupField]

/-- C10.  For a listing with a truthy key whose stored image count is
below ten, if the pass registers no new image row (every upload fails,
collides with an already-stored URL, or fails to insert), the produced
document's `main_image_url` is the empty string even though the listing
may already have stored images; and when that document's status is
`Active`, the unconditional keyed upsert stores it verbatim, overwriting
any previously stored `main_image_url` with the empty string. -/
theorem c10_main_image_overwritten :
    ∀ (env : PassEnv) (db : ImagesDB) (l : RawListing) (b : Bool),
      truthy (getSafe l "ListingKey" JsVal.null) = true →
      countImages db (getSafe l "ListingKey" JsVal.null) < 10 →
      (processListingSequential env db l b).2 = db →
      ∃ d : Doc, processListingSequential env db l b = (some d, db) ∧
        lookupField d.entries "main_image_url" = some (JsVal.str "") ∧
        ∀ (ldb : ListingsDB) (idb : ImagesDB), docStatus d = JsVal.str "Active" →
          lookupListing ((insertOrUpdateListingInMongoDB ldb idb d).1) (docKey d) = some d := by
  intro env db l b ht hc hdb
  simp only [processListingSequential] at hdb ⊢
  rw [if_neg (by simp [ht]), if_pos hc] at hdb ⊢
  obtain ⟨ext, h1, h2, h3, h4⟩ := uploadImagesLoop_spec env (getSafe l "ListingKey" JsVal.null)
    (imageUrlsFor db (getSafe l "ListingKey" JsVal.null))
    (imageUrlsOf (getSafe l "Media" (JsVal.media []))) 0 0
    (10 - countImages db (getSafe l "ListingKey" JsVal.null)) db ""
  simp only at hdb
  have hext : ext = [] := by
    have := h1.symm.trans hdb
    simpa using this
  have hmain := h4 hext
  refine ⟨mkDoc l (getSafe l "ListingKey" JsVal.null) "", ?_, mkDoc_main_lookup _ _ _, ?_⟩
  · rw [Prod.ext_iff]
    constructor
    · simp [hmain]
    · simpa using hdb
  · intro ldb idb hst
    unfold insertOrUpdateListingInMongoDB
    rw [if_neg (by simp [hst])]
    exact lookupListing_upsert _ ldb

/-- C10, witness: a listing with one stored image whose single upload
fails produces a document with an empty `main_image_url` that the upsert
stores verbatim. -/
theorem c10_main_image_overwritten_witness :
    ∃ d : Doc, processListingSequential envNoUp dbK1 lKm true = (some d, dbK1) ∧
      lookupField d.entries "main_image_url" = some (JsVal.str "") ∧
      ∀ (ldb : ListingsDB) (idb : ImagesDB), docStatus d = JsVal.str "Active" →
        lookupListing ((insertOrUpdateListingInMongoDB ldb idb d).1) (docKey d) = some d :=
  c10_main_image_overwritten envNoUp dbK1 lKm true (by decide) (by decide) (by decide)

theorem linksOf_length_le_numOk (rs : List PageResult) :
    (linksOf rs).length ≤ numOk rs := by
  induction rs with
  | nil => simp [linksOf, numOk]
  | cons r rs ih =>
    cases r with
    | err s => simpa [linksOf, numOk] using ih
    | ok v nl =>
      cases nl with
      | none => simp [linksOf, numOk]; omega
      | some u => simp [linksOf, numOk]; omega

theorem numOk_le_length (rs : List PageResult) : numOk rs ≤ rs.length := by
  induction rs with
  | nil => simp [numOk]
  | cons r rs ih => cases r <;> simp [numOk] <;> omega

theorem flatOk_append (xs ys : List PageResult) :
    flatOk (xs ++ ys) = flatOk xs ++ flatOk ys := by
  induction xs with
  | nil => simp [flatOk]
  | cons x rest ih => cases x <;> simp [flatOk, ih]

/-- Everything the loop returns beyond its starting accumulators: the
requests issued after entry, and the listings as the ordered
concatenation of the successful pages among exactly those requests. -/
theorem fetchLoop_spec (env : FetchEnv) (maxPages : Nat) :
    ∀ (queue : List String) (pageCount : Nat) (acc : List RawListing) (reqs : List Request),
      ∃ delta : List Request,
        (fetchLoop env maxPages queue pageCount acc reqs).2.2 = reqs ++ delta ∧
        (fetchLoop env maxPages queue pageCount acc reqs).1 =
          acc ++ flatOk (delta.map (fun r => env.page r.url)) := by
  intro queue pageCount acc reqs
  induction queue, pageCount, acc, reqs using fetchLoop.induct env maxPages with
  | case1 q pc acc reqs h =>
    rw [fetchLoop, dif_pos h]
    exact ⟨[], by simp, by simp [flatOk]⟩
  | case2 q pc acc reqs h batch results ih =>
    rw [fetchLoop, dif_neg h]
    simp only
    obtain ⟨delta, hreq, hls⟩ := ih
    refine ⟨(q.take CONCURRENT_REQUESTS).map mkReq ++ delta, ?_, ?_⟩
    · rw [hreq, List.append_assoc]
    · rw [hls, List.append_assoc, List.map_append, flatOk_append, List.map_map]
      have : ((fun r => env.page r.url) ∘ mkReq) = env.page := rfl
      rw [this]


/-- Every request the loop adds is `mkReq` of some URL. -/
theorem fetchLoop_reqs_shape (env : FetchEnv) (maxPages : Nat) :
    ∀ (queue : List String) (pageCount : Nat) (acc : List RawListing) (reqs : List Request),
      (∀ r ∈ reqs, ∃ u, r = mkReq u) →
      ∀ r ∈ (fetchLoop env maxPages queue pageCount acc reqs).2.2, ∃ u, r = mkReq u := by
  intro queue pageCount acc reqs
  induction queue, pageCount, acc, reqs using fetchLoop.induct env maxPages with
  | case1 q pc acc reqs h =>
    intro hr r hmem
    rw [fetchLoop, dif_pos h] at hmem
    exact hr r hmem
  | case2 q pc acc reqs h batch results ih =>
    intro hr r hmem
    rw [fetchLoop, dif_neg h] at hmem
    refine ih ?_ r hmem
    intro r' hm'
    rcases List.mem_append.mp hm' with hm' | hm'
    · exact hr r' hm'
    · obtain ⟨u, _, rfl⟩ := List.mem_map.mp hm'
      exact ⟨u, rfl⟩

/-- With a queue of at most one URL — the invariant of the actual run,
where every page carries at most one continuation link — the loop issues
at most `maxPages - pageCount` further requests. -/
theorem fetchLoop_req_bound (env : FetchEnv) (maxPages : Nat) :
    ∀ (queue : List String) (pageCount : Nat) (acc : List RawListing) (reqs : List Request),
      queue.length ≤ 1 →
      (fetchLoop env maxPages queue pageCount acc reqs).2.2.length ≤
        reqs.length + (maxPages - pageCount) := by
  intro queue pageCount acc reqs
  induction queue, pageCount, acc, reqs using fetchLoop.induct env maxPages with
  | case1 q pc acc reqs h =>
    intro hq
    rw [fetchLoop, dif_pos h]
    dsimp only
    omega
  | case2 q pc acc reqs h batch results ih =>
    intro hq
    have hne : q ≠ [] := by
      intro hcon
      exact h (Or.inl hcon)
    have hpc : pc < maxPages := by
      by_contra hcon
      exact h (Or.inr (by omega))
    have hq1 : q.length = 1 := by
      have := List.length_pos.mpr hne
      omega
    have hbatch : batch.length = 1 := by
      simp only [batch, List.length_take, CONCURRENT_REQUESTS]
      omega
    have hres : results.length = 1 := by
      simp only [results, List.length_map, hbatch]
    have hnum : numOk results ≤ 1 := by
      have := numOk_le_length results
      omega
    have hlinks : (linksOf results).length ≤ numOk results := linksOf_length_le_numOk results
    have hdrop : (List.drop CONCURRENT_REQUESTS q).length = 0 := by
      simp only [List.length_drop, CONCURRENT_REQUESTS]
      omega
    have hstep : fetchLoop env maxPages q pc acc reqs =
        fetchLoop env maxPages (List.drop CONCURRENT_REQUESTS q ++ linksOf results)
          (pc + numOk results) (acc ++ flatOk results) (reqs ++ List.map mkReq batch) := by
      rw [fetchLoop, dif_neg h]
    rw [hstep]
    by_cases hz : numOk results = 0
    · have hlz : linksOf results = [] := by
        have : (linksOf results).length = 0 := by omega
        exact List.length_eq_zero.mp this
      have hqz : List.drop CONCURRENT_REQUESTS q ++ linksOf results = [] := by
        rw [hlz]
        simpa using List.length_eq_zero.mp hdrop
      rw [show (fetchLoop env maxPages (List.drop CONCURRENT_REQUESTS q ++ linksOf results)
          (pc + numOk results) (acc ++ flatOk results) (reqs ++ List.map mkReq batch)) =
          (acc ++ flatOk results, pc + numOk results, reqs ++ List.map mkReq batch) from by
        rw [fetchLoop, dif_pos (Or.inl hqz)]]
      dsimp only
      simp only [List.length_append, List.length_map, hbatch]
      omega
    · have hql : (List.drop CONCURRENT_REQUESTS q ++ linksOf results).length ≤ 1 := by
        simp only [List.length_append]
        omega
      have := ih hql
      simp only [List.length_append, List.length_map, hbatch] at this
      omega


/-- C7.  In every crawl cycle the paged fetcher issues at most
`API_MAX_PAGES` (10) page requests — whatever the token state and
whatever the server returns — and the explicit `$top` page-size
parameter is sent exactly with the base request, where it equals
`API_PAGE_SIZE` (1000); continuation requests re-issue the
server-provided `@odata.nextLink` with no parameters, so their page size
is the one the server embedded in the link. -/
theorem c7_page_request_bound :
    ∀ (st : TokSt) (now : Int) (tresp : TokenResponse) (env : FetchEnv),
      (getAllActiveListings st now tresp env).reqs.length ≤ API_MAX_PAGES ∧
      ∀ r ∈ (getAllActiveListings st now tresp env).reqs,
        r.top = (if r.url = baseUrl then some API_PAGE_SIZE else none) := by
  intro st now tresp env
  simp only [getAllActiveListings]
  split_ifs with ht
  · simp
  · constructor
    · have := fetchLoop_req_bound env API_MAX_PAGES [baseUrl] 0 [] [] (by simp)
      simpa using this
    · intro r hr
      have hshape := fetchLoop_reqs_shape env API_MAX_PAGES [baseUrl] 0 [] []
        (by intro r' hr'; simp at hr') r (by simpa using hr)
      obtain ⟨u, rfl⟩ := hshape
      rfl

/-- C7, witness: a concrete run stays within the page bound. -/
theorem c7_page_request_bound_witness :
    (getAllActiveListings tokValidSt 0 TokenResponse.netErr env401).reqs.length ≤ API_MAX_PAGES :=
  (c7_page_request_bound tokValidSt 0 TokenResponse.netErr env401).1

/-- C8.  The fetch returns exactly the concatenation, in page-arrival
order, of the `value` lists of the successfully fetched pages among the
requests it issued; failed pages contribute nothing, and no successful
page's listings are lost or duplicated (the result is an equality). -/
theorem c8_page_concatenation :
    ∀ (st : TokSt) (now : Int) (tresp : TokenResponse) (env : FetchEnv),
      (getAllActiveListings st now tresp env).listings =
        flatOk (((getAllActiveListings st now tresp env).reqs).map (fun r => env.page r.url)) := by
  intro st now tresp env
  simp only [getAllActiveListings]
  split_ifs with ht
  · simp [flatOk]
  · obtain ⟨delta, hreq, hls⟩ := fetchLoop_spec env API_MAX_PAGES [baseUrl] 0 [] []
    dsimp only
    rw [hreq, hls]
    simp

/-- C9, counterexample.  The claim that `other_info` contains exactly
the unrecognized upstream fields is false on the code at a concrete
input: for a record with the recognized truthy field `ListingKey` and
the unrecognized falsy field `CustomField = 0`, the code's `other_info`
keeps `ListingKey` (recognized) and drops `CustomField` (falsy), the
exact opposite of the spec-side bag. -/
theorem c9_counterexample :
    otherInfo l9 ≠ otherInfoPerSpec l9 ∧
      ("ListingKey", JsVal.str "A1") ∈ otherInfo l9 ∧
      "ListingKey" ∈ recognizedKeys ∧
      ("CustomField", JsVal.num 0) ∈ otherInfoPerSpec l9 ∧
      ("CustomField", JsVal.num 0) ∉ otherInfo l9 := by
  decide

/-- C9, amended.  `other_info` contains exactly the upstream fields —
recognized or not — whose values are truthy and whose key is not
`Media`, keyed by their original upstream names (so the raw media list
is never present); and every numeric schema field whose upstream source
is absent is defaulted to 0 (respectively 0.0 for the
latitude/longitude float fields). -/
theorem c9_other_info :
    (∀ (l : RawListing) (p : String × JsVal),
      p ∈ otherInfo l ↔ p ∈ l ∧ p.1 ≠ "Media" ∧ truthy p.2 = true) ∧
    (∀ (l : RawListing) (lk : JsVal) (m : String),
      (lookupField l "ListPrice" = none →
        lookupField (mkDoc l lk m).entries "list_price" = some (JsVal.num 0)) ∧
      (lookupField l "OriginalListPrice" = none →
        lookupField (mkDoc l lk m).entries "original_list_price" = some (JsVal.num 0)) ∧
      (lookupField l "PreviousListPrice" = none →
        lookupField (mkDoc l lk m).entries "previous_list_price" = some (JsVal.num 0)) ∧
      (lookupField l "LeaseAmount" = none →
        lookupField (mkDoc l lk m).entries "lease_amount" = some (JsVal.num 0)) ∧
      (lookupField l "Latitude" = none →
        lookupField (mkDoc l lk m).entries "latitude" = some (JsVal.num 0)) ∧
      (lookupField l "Longitude" = none →
        lookupField (mkDoc l lk m).entries "longitude" = some (JsVal.num 0)) ∧
      (lookupField l "BedroomsTotal" = none →
        lookupField (mkDoc l lk m).entries "bedrooms" = some (JsVal.num 0)) ∧
      (lookupField l "BathroomsTotalInteger" = none →
        lookupField (mkDoc l lk m).entries "bathrooms" = some (JsVal.num 0)) ∧
      (lookupField l "LivingArea" = none →
        lookupField (mkDoc l lk m).entries "living_area_sqft" = some (JsVal.num 0)) ∧
      (lookupField l "LotSizeSquareFeet" = none →
        lookupField (mkDoc l lk m).entries "lot_size_sqft" = some (JsVal.num 0)) ∧
      (lookupField l "DaysOnMarket" = none →
        lookupField (mkDoc l lk m).entries "days_on_market" = some (JsVal.num 0))) := by
  constructor
  · intro l p
    simp [otherInfo, List.mem_filter]
  · intro l lk m
    refine ⟨?_, ?_, ?_, ?_, ?_, ?_, ?_, ?_, ?_, ?_, ?_⟩ <;>
      (intro h; simp [mkDoc, lookupField, getSafe, h])

/-- C9, witness: the empty record gets the numeric default for
`list_price`. -/
theorem c9_other_info_witness :
    lookupField (mkDoc [] (JsVal.str "A") "").entries "list_price" = some (JsVal.num 0) :=
  ((c9_other_info.2 [] (JsVal.str "A") "").1) rfl

end Trestle
